import Mathlib

/-
Verification development for the ASCII battle game server (src/server.c).

The server keeps a 5x5 grid of obstacle flags, an array of MAX_PLAYERS = 4
player slots, and a counter player_count, all mutated only inside critical
sections of a single mutex.  We embed each critical section as a pure
function on a GameState value; randomness (rand draws for obstacle placement
and spawn placement) is embedded as an explicit list of draws; a send that
can fail during broadcast is embedded as a boolean oracle per slot.
-/

set_option autoImplicit false

namespace AsciiBattle

/-- GRID_SIZE constant from server.c. -/
def GRID_SIZE : Int := 5

/-- MAX_PLAYERS constant from server.c. -/
def MAX_PLAYERS : Int := 4

/-- MAX_HP constant from server.c. -/
def MAX_HP : Int := 100

/-- DAMAGE constant from server.c. -/
def DAMAGE : Int := 20

/-- One slot of the players array: symbol, row, col, hp, socket_fd, active. -/
structure Player where
  symbol : Char
  row : Int
  col : Int
  hp : Int
  socket_fd : Int
  active : Bool
deriving DecidableEq, Repr

/-- The mutex-protected global state: the players array and player_count.
The obstacle grid is set once at startup and never written afterwards, so
it is passed separately as an immutable parameter obs. -/
@[ext]
structure GameState where
  players : Fin 4 → Player
  player_count : Int

/-- Result of one critical section: the new state, the caller-only reply
text if any, and whether a broadcast of the state was triggered. -/
structure LineResult where
  state : GameState
  reply : Option String
  broadcast : Bool

/-- Caller-only message for MOVE with a missing direction. -/
def msgUsage : String := "Usage: MOVE <UP|DOWN|LEFT|RIGHT>\n"

/-- Caller-only message for MOVE with an unrecognized direction. -/
def msgInvalidDir : String := "Invalid direction. Use UP, DOWN, LEFT, or RIGHT.\n"

/-- Caller-only message for a move out of bounds. -/
def msgOutOfBounds : String := "Move blocked: out of bounds.\n"

/-- Caller-only message for a move into an obstacle. -/
def msgObstacle : String := "Move blocked: obstacle in the way.\n"

/-- Caller-only message for a move into an occupied cell. -/
def msgOccupied : String := "Move blocked: another player is in that cell.\n"

/-- Caller-only message for an attack with no adjacent target. -/
def msgNoTargets : String := "No targets adjacent to attack.\n"

/-- Caller-only message for an unknown command. -/
def msgUnknown : String := "Unknown command. Available commands: MOVE, ATTACK, QUIT.\n"

/-- Message sent to a connection refused because the server is full. -/
def msgServerFull : String := "Server full. Try again later.\n"

/-- Message sent on the defensive no-free-slot path of the accept loop. -/
def msgNoSlot : String := "Server error: no slot available.\n"

/-- C toupper in the C locale, restricted to the byte range the server sees. -/
def upChar (c : Char) : Char :=
  if 'a' ≤ c ∧ c ≤ 'z' then Char.ofNat (c.toNat - 32) else c

/-- C isspace in the C locale: space, tab, newline, vertical tab,
form feed, carriage return. -/
def isSpaceC (c : Char) : Bool :=
  c == ' ' || c == '\t' || c == '\n' || c == Char.ofNat 11 || c == Char.ofNat 12 || c == '\r'

/-- strncasecmp(buffer, MOVE-literal, 4) == 0: the first four characters
exist and are MOVE case-insensitively. -/
def startsWithMove (l : List Char) : Bool :=
  (l.take 4).map upChar == ['M', 'O', 'V', 'E']

/-- strcasecmp == 0: whole-string case-insensitive equality. -/
def ciEq (a b : List Char) : Bool :=
  a.map upChar == b.map upChar

/-- sscanf(rest, percent-15-s, direction): skip leading whitespace, then read
up to 15 non-whitespace characters; fails when no token is present. -/
def scanToken (l : List Char) : Option (List Char) :=
  let rest := l.dropWhile isSpaceC
  if rest = [] then none
  else some ((rest.takeWhile (fun c => !isSpaceC c)).take 15)

/-- The occupied-cell scan shared by the move check and spawn placement:
some active slot other than idx sits at (r, c). -/
def cellBlocked (s : GameState) (idx : Fin 4) (r c : Int) : Bool :=
  (List.finRange 4).any
    (fun j => (s.players j).active && (j != idx) && ((s.players j).row == r) && ((s.players j).col == c))

/-- The state after a committed move of slot i to (newR, newC): exactly one
slot position written, count untouched. -/
def movedState (s : GameState) (i : Fin 4) (newR newC : Int) : GameState :=
  { players := Function.update s.players i { s.players i with row := newR, col := newC },
    player_count := s.player_count }

/-- The body of the MOVE command after the target cell (newR, newC) has been
computed: bounds check, obstacle check, occupancy check, then commit. -/
def moveResolve (obs : Int → Int → Bool) (s : GameState) (i : Fin 4) (newR newC : Int) : LineResult :=
  if newR < 0 ∨ GRID_SIZE ≤ newR ∨ newC < 0 ∨ GRID_SIZE ≤ newC then
    ⟨s, some msgOutOfBounds, false⟩
  else if obs newR newC then
    ⟨s, some msgObstacle, false⟩
  else if cellBlocked s i newR newC then
    ⟨s, some msgOccupied, false⟩
  else
    ⟨movedState s i newR newC, none, true⟩

/-- Adjacency test of the attack loop: abs(dr) == 1 and dc == 0, or
abs(dc) == 1 and dr == 0, on an active slot other than the attacker. -/
def hitCond (aR aC : Int) (i q : Fin 4) (p : Player) : Bool :=
  p.active && (q != i) &&
    (((p.row - aR).natAbs == 1 && p.col == aC) || ((p.col - aC).natAbs == 1 && p.row == aR))

/-- Effect of one iteration of the attack loop on the visited slot:
subtract DAMAGE; on death clamp hp to 0, release the socket, free the slot. -/
def attackSlot (aR aC : Int) (i q : Fin 4) (p : Player) : Player :=
  if hitCond aR aC i q p then
    (if p.hp - DAMAGE ≤ 0 then
      { symbol := p.symbol, row := p.row, col := p.col, hp := 0, socket_fd := -1, active := false }
    else { p with hp := p.hp - DAMAGE })
  else p

/-- Whether the attack loop iteration kills the visited slot. -/
def killCond (aR aC : Int) (i q : Fin 4) (p : Player) : Bool :=
  hitCond aR aC i q p && decide (p.hp - DAMAGE ≤ 0)

/-- The attack loop over the players array, threading the state and the
hit flag; aR and aC are the attacker coordinates read before the loop. -/
def attackGo (aR aC : Int) (i : Fin 4) : List (Fin 4) → GameState → Bool → GameState × Bool
  | [], s, hit => (s, hit)
  | q :: rest, s, hit =>
      if hitCond aR aC i q (s.players q) then
        attackGo aR aC i rest
          { players := Function.update s.players q (attackSlot aR aC i q (s.players q)),
            player_count :=
              s.player_count - (if killCond aR aC i q (s.players q) then 1 else 0) }
          true
      else attackGo aR aC i rest s hit

/-- Condition under which the broadcast loop removes a slot: the slot is
active, its socket is valid, and the send to it fails. -/
def pruneCond (fails : Fin 4 → Bool) (q : Fin 4) (p : Player) : Bool :=
  p.active && decide (0 ≤ p.socket_fd) && fails q

/-- Effect of the broadcast loop on one slot when the send to it fails:
close the socket, mark the slot free, as in broadcast_state_locked. -/
def pruneSlot (fails : Fin 4 → Bool) (q : Fin 4) (p : Player) : Player :=
  if pruneCond fails q p then { p with socket_fd := -1, active := false } else p

/-- The send loop of broadcast_state_locked: each active slot with a valid
socket is sent the snapshot; on failure it is removed and the count drops. -/
def pruneGo (fails : Fin 4 → Bool) : List (Fin 4) → GameState → GameState
  | [], s => s
  | q :: rest, s =>
      if pruneCond fails q (s.players q) then
        pruneGo fails rest
          { players := Function.update s.players q (pruneSlot fails q (s.players q)),
            player_count := s.player_count - 1 }
      else pruneGo fails rest s

/-- broadcast_state_locked restricted to its state effect: the delivery
pass over all four slots with the given send-failure oracle. -/
def broadcastPrune (fails : Fin 4 → Bool) (s : GameState) : GameState :=
  pruneGo fails (List.finRange 4) s

/-- Order-free description of one ATTACK resolution: every slot's final
value is a function of that slot's initial value alone, the count drops by
the number of killed slots, and the hit flag is a scan-free predicate.
Stating that the loop attackGo equals this function shows each slot is
visited exactly once and the outcome does not depend on visit order. -/
def attackPointwise (s : GameState) (i : Fin 4) : GameState × Bool :=
  ({ players := fun q => attackSlot (s.players i).row (s.players i).col i q (s.players q),
     player_count := s.player_count -
       ((List.finRange 4).countP
         (fun q => killCond (s.players i).row (s.players i).col i q (s.players q)) : Int) },
   (List.finRange 4).any
     (fun q => hitCond (s.players i).row (s.players i).col i q (s.players q)))

/-- Pointwise description of one broadcast delivery pass over a state whose
occupied slots all hold valid sockets: exactly the occupied slots with a
failing send are freed (socket released, active cleared), each exactly once,
and the count drops by their number. -/
def prunedPointwise (fails : Fin 4 → Bool) (s : GameState) : GameState :=
  { players := fun q =>
      if (s.players q).active = true ∧ fails q = true then
        { s.players q with socket_fd := -1, active := false }
      else s.players q,
    player_count := s.player_count -
      ((List.finRange 4).countP (fun q => (s.players q).active && fails q) : Int) }

/-- The state after the QUIT or disconnect path frees slot i: socket
released, active cleared, count decremented unconditionally. -/
def freedState (s : GameState) (i : Fin 4) : GameState :=
  { players := Function.update s.players i { s.players i with socket_fd := -1, active := false },
    player_count := s.player_count - 1 }

/-- One command line handled by client_handler for the session in slot i:
parse, validate against the state, mutate, decide the reply and whether a
broadcast is triggered. -/
def handleLine (obs : Int → Int → Bool) (s : GameState) (i : Fin 4) (line : List Char) : LineResult :=
  if startsWithMove line then
    match scanToken (line.drop 4) with
    | none => ⟨s, some msgUsage, false⟩
    | some tok =>
        let d := tok.map upChar
        if d = ("UP".toList) then
          moveResolve obs s i ((s.players i).row - 1) (s.players i).col
        else if d = ("DOWN".toList) then
          moveResolve obs s i ((s.players i).row + 1) (s.players i).col
        else if d = ("LEFT".toList) then
          moveResolve obs s i (s.players i).row ((s.players i).col - 1)
        else if d = ("RIGHT".toList) then
          moveResolve obs s i (s.players i).row ((s.players i).col + 1)
        else ⟨s, some msgInvalidDir, false⟩
  else if ciEq line ("ATTACK".toList) then
    let res := attackGo (s.players i).row (s.players i).col i (List.finRange 4) s false
    if res.2 then ⟨res.1, none, true⟩ else ⟨res.1, some msgNoTargets, false⟩
  else if ciEq line ("QUIT".toList) then
    ⟨freedState s i, none, true⟩
  else ⟨s, some msgUnknown, false⟩

/-- Linear scan of the accept loop for the first free slot. -/
def findFree (s : GameState) : Option (Fin 4) :=
  (List.finRange 4).find? (fun i => !(s.players i).active)

/-- The do-while rejection-sampling loop of the accept loop: draw random
coordinates until a cell that is neither an obstacle nor occupied by
another active slot; draws is the stream of rand results. -/
def samplePos (obs : Int → Int → Bool) (s : GameState) (idx : Fin 4) :
    List (Fin 5 × Fin 5) → Option (Int × Int)
  | [] => none
  | d :: rest =>
      if obs (d.1.val : Int) (d.2.val : Int) ∨ cellBlocked s idx (d.1.val : Int) (d.2.val : Int) then
        samplePos obs s idx rest
      else some ((d.1.val : Int), (d.2.val : Int))

/-- Slot fields written by the accept loop before spawn placement:
active flag, socket descriptor, full health. -/
def occupyPre (p : Player) (fd : Int) : Player :=
  { p with active := true, socket_fd := fd, hp := MAX_HP }

/-- Slot fields written by the accept loop including the sampled position. -/
def occupySlot (p : Player) (fd : Int) (r c : Int) : Player :=
  { p with active := true, socket_fd := fd, hp := MAX_HP, row := r, col := c }

/-- The state after the accept loop has fully set up slot idx for a new
connection with descriptor fd at sampled position (r, c). -/
def joinedState (s : GameState) (idx : Fin 4) (fd r c : Int) : GameState :=
  { players := Function.update s.players idx (occupySlot (s.players idx) fd r c),
    player_count := s.player_count + 1 }

/-- The accept-loop critical section for a new connection with descriptor fd:
capacity check, free-slot scan, slot setup with rejection-sampled spawn
position, count increment, broadcast.  Returns none when the draw stream is
exhausted before an admissible cell is found. -/
def joinStep (obs : Int → Int → Bool) (s : GameState) (fd : Int)
    (draws : List (Fin 5 × Fin 5)) : Option LineResult :=
  if MAX_PLAYERS ≤ s.player_count then some ⟨s, some msgServerFull, false⟩
  else
    match findFree s with
    | none => some ⟨s, some msgNoSlot, false⟩
    | some idx =>
        let s1 : GameState :=
          { players := Function.update s.players idx (occupyPre (s.players idx) fd),
            player_count := s.player_count }
        match samplePos obs s1 idx draws with
        | none => none
        | some rc => some ⟨joinedState s idx fd rc.1 rc.2, none, true⟩

/-- The critical section run when recv returns 0 or negative: if the slot is
still active, release its socket, free it, decrement the count, broadcast. -/
def disconnectStep (s : GameState) (i : Fin 4) : LineResult :=
  if (s.players i).active then ⟨freedState s i, none, true⟩
  else ⟨s, none, false⟩

/-- The critical section at the end of client_handler: if the slot is still
marked active, clear the flag and decrement the count (no broadcast). -/
def threadExitCleanup (s : GameState) (i : Fin 4) : GameState :=
  if (s.players i).active then
    { players := Function.update s.players i { s.players i with active := false },
      player_count := s.player_count - 1 }
  else s

/-- Apply the broadcast delivery pass when the critical section triggered a
broadcast, with the given send-failure oracle. -/
def applyBroadcast (r : LineResult) (fails : Fin 4 → Bool) : GameState :=
  if r.broadcast then broadcastPrune fails r.state else r.state

/-- The players array as set up in main before the accept loop. -/
def initPlayer (i : Fin 4) : Player :=
  { symbol := Char.ofNat (65 + i.val), row := 0, col := 0, hp := 0, socket_fd := -1, active := false }

/-- The global state as set up in main before the accept loop. -/
def initState : GameState :=
  { players := initPlayer, player_count := 0 }

/-- One critical section of the running server, as a step relation:
a command line submitted for the session slot i, a join of a new
connection, the disconnect path, the thread-exit cleanup, or a broadcast
delivery pass with failures.  As in client_handler, a received command's
critical section runs regardless of the slot's occupied flag: a session
whose slot was freed concurrently (killed by an attack, or pruned by a
failed broadcast delivery) can still execute one already-received command
such as QUIT. -/
inductive Step (obs : Int → Int → Bool) : GameState → GameState → Prop where
  | cmd : ∀ (s : GameState) (i : Fin 4) (line : List Char) (fails : Fin 4 → Bool),
      Step obs s (applyBroadcast (handleLine obs s i line) fails)
  | joined : ∀ (s : GameState) (fd : Int) (draws : List (Fin 5 × Fin 5))
      (fails : Fin 4 → Bool) (res : LineResult),
      0 ≤ fd → joinStep obs s fd draws = some res →
      Step obs s (applyBroadcast res fails)
  | disconnected : ∀ (s : GameState) (i : Fin 4) (fails : Fin 4 → Bool),
      Step obs s (applyBroadcast (disconnectStep s i) fails)
  | cleanup : ∀ (s : GameState) (i : Fin 4),
      Step obs s (threadExitCleanup s i)
  | pruned : ∀ (s : GameState) (fails : Fin 4 → Bool),
      Step obs s (broadcastPrune fails s)

/-- States reachable from the post-setup state by critical sections. -/
def Reachable (obs : Int → Int → Bool) (s : GameState) : Prop :=
  Relation.ReflTransGen (Step obs) initState s

/-- The step relation restricted to live sessions: a command critical
section fires only while the acting slot is still occupied.  This is the
purely sequential reading of the session loop, in which a freed slot's
socket is closed before its thread can submit another command; the
unrestricted Step relation additionally contains the stale-session
commands that a concurrent free makes possible. -/
inductive LiveStep (obs : Int → Int → Bool) : GameState → GameState → Prop where
  | cmd : ∀ (s : GameState) (i : Fin 4) (line : List Char) (fails : Fin 4 → Bool),
      (s.players i).active = true →
      LiveStep obs s (applyBroadcast (handleLine obs s i line) fails)
  | joined : ∀ (s : GameState) (fd : Int) (draws : List (Fin 5 × Fin 5))
      (fails : Fin 4 → Bool) (res : LineResult),
      0 ≤ fd → joinStep obs s fd draws = some res →
      LiveStep obs s (applyBroadcast res fails)
  | disconnected : ∀ (s : GameState) (i : Fin 4) (fails : Fin 4 → Bool),
      LiveStep obs s (applyBroadcast (disconnectStep s i) fails)
  | cleanup : ∀ (s : GameState) (i : Fin 4),
      LiveStep obs s (threadExitCleanup s i)
  | pruned : ∀ (s : GameState) (fails : Fin 4 → Bool),
      LiveStep obs s (broadcastPrune fails s)

/-- States reachable from the post-setup state by live-session steps. -/
def ReachableLive (obs : Int → Int → Bool) (s : GameState) : Prop :=
  Relation.ReflTransGen (LiveStep obs) initState s

/-- Number of slots whose active flag is set, by linear scan. -/
def countOccupied (s : GameState) : Nat :=
  (List.finRange 4).countP (fun i => (s.players i).active)

/-- The position invariant of the spec: every occupied slot is in bounds,
not on an obstacle, and no two occupied slots share a cell. -/
def PosInv (obs : Int → Int → Bool) (s : GameState) : Prop :=
  (∀ i : Fin 4, (s.players i).active = true →
      0 ≤ (s.players i).row ∧ (s.players i).row < GRID_SIZE ∧
      0 ≤ (s.players i).col ∧ (s.players i).col < GRID_SIZE ∧
      obs (s.players i).row (s.players i).col = false) ∧
  (∀ i j : Fin 4, i ≠ j → (s.players i).active = true → (s.players j).active = true →
      ¬((s.players i).row = (s.players j).row ∧ (s.players i).col = (s.players j).col))

/-- The count invariant of the spec: player_count equals the number of
slots with the active flag set. -/
def CountInv (s : GameState) : Prop :=
  s.player_count = (countOccupied s : Int)

/-- Set one cell of the startup obstacle grid. -/
def setObs (g : Fin 5 → Fin 5 → Bool) (d : Fin 5 × Fin 5) : Fin 5 → Fin 5 → Bool :=
  fun r c => if r = d.1 ∧ c = d.2 then true else g r c

/-- The obstacle placement loop of main: place need obstacles, re-rolling
a draw that lands on an existing obstacle; draws is the stream of rand
results.  Returns none when the stream is exhausted first. -/
def placeObstacles : List (Fin 5 × Fin 5) → Nat → (Fin 5 → Fin 5 → Bool) →
    Option (Fin 5 → Fin 5 → Bool)
  | _, 0, g => some g
  | [], _ + 1, _ => none
  | d :: rest, need + 1, g =>
      if g d.1 d.2 then placeObstacles rest (need + 1) g
      else placeObstacles rest need (setObs g d)

/-- Cells of the grid that carry an obstacle, for a given obstacle map. -/
def obstacleCells (obs : Int → Int → Bool) : Finset (Fin 5 × Fin 5) :=
  Finset.univ.filter (fun d => obs (d.1.val : Int) (d.2.val : Int) = true)

/-- Modelled from the spec: the section 4.4 command grammar, which the
source never materializes as one function.  A line is a grammar command
when its whitespace-separated tokens are MOVE plus one of the four
direction words, or the single token ATTACK, or the single token QUIT,
keyword and argument case-insensitive. -/
def splitWSAux : List Char → List Char → List (List Char)
  | [], acc => if acc = [] then [] else [acc.reverse]
  | c :: rest, acc =>
      if isSpaceC c then
        (if acc = [] then splitWSAux rest [] else acc.reverse :: splitWSAux rest [])
      else splitWSAux rest (c :: acc)

/-- Whitespace tokenization used to state the spec grammar. -/
def splitWS (l : List Char) : List (List Char) := splitWSAux l []

/-- Modelled from the spec: whether a trimmed line is a command of the
section 4.4 grammar. -/
def specIsCommand (l : List Char) : Bool :=
  match splitWS l with
  | [k] => ciEq k ("ATTACK".toList) || ciEq k ("QUIT".toList)
  | [k, d] =>
      ciEq k ("MOVE".toList) &&
        (ciEq d ("UP".toList) || ciEq d ("DOWN".toList) ||
         ciEq d ("LEFT".toList) || ciEq d ("RIGHT".toList))
  | _ => false

/-- Every occupied slot holds a valid (nonnegative) socket descriptor. -/
def SockInv (s : GameState) : Prop :=
  ∀ i : Fin 4, (s.players i).active = true → 0 ≤ (s.players i).socket_fd

/-- Obstacle-free grid used for concrete instances. -/
def obs0 : Int → Int → Bool := fun _ _ => false

/-- Concrete state: slot 0 occupied at (2,2) with full health, others free. -/
def stateA : GameState :=
  { players := fun i =>
      if i = 0 then { symbol := 'A', row := 2, col := 2, hp := 100, socket_fd := 5, active := true }
      else initPlayer i,
    player_count := 1 }

/-- Concrete state: slots 0 and 1 occupied on adjacent cells (2,2) and
(2,3), full health, others free. -/
def stateB : GameState :=
  { players := fun i =>
      if i = 0 then { symbol := 'A', row := 2, col := 2, hp := 100, socket_fd := 5, active := true }
      else if i = 1 then { symbol := 'B', row := 2, col := 3, hp := 100, socket_fd := 6, active := true }
      else initPlayer i,
    player_count := 2 }

lemma nodup_finRange4 : (List.finRange 4 : List (Fin 4)).Nodup := List.nodup_finRange 4

lemma mem_finRange4 (q : Fin 4) : q ∈ (List.finRange 4 : List (Fin 4)) := List.mem_finRange q

lemma countP_congr4 {α : Type} (p q : α → Bool) :
    ∀ l : List α, (∀ x ∈ l, p x = q x) → l.countP p = l.countP q := by
  intro l
  induction l with
  | nil => intro _; simp
  | cons a t ih =>
      intro h
      rw [List.countP_cons, List.countP_cons, h a (by simp), ih (fun x hx => h x (by simp [hx]))]

lemma any_congr4 {α : Type} (p q : α → Bool) :
    ∀ l : List α, (∀ x ∈ l, p x = q x) → l.any p = l.any q := by
  intro l
  induction l with
  | nil => intro _; simp
  | cons a t ih =>
      intro h
      rw [List.any_cons, List.any_cons, h a (by simp), ih (fun x hx => h x (by simp [hx]))]

lemma countP_update_mem (P : Player → Bool) (f : Fin 4 → Player) (q : Fin 4) (p' : Player) :
    ∀ l : List (Fin 4), l.Nodup → q ∈ l →
      l.countP (fun i => P (Function.update f q p' i)) + (if P (f q) then 1 else 0) =
        l.countP (fun i => P (f i)) + (if P p' then 1 else 0) := by
  intro l
  induction l with
  | nil => intro _ h; simp at h
  | cons a t ih =>
      intro hnd hmem
      rw [List.nodup_cons] at hnd
      obtain ⟨hat, hndt⟩ := hnd
      rw [List.countP_cons, List.countP_cons]
      rcases List.mem_cons.mp hmem with rfl | hqt
      · have hcongr : t.countP (fun i => P (Function.update f q p' i)) =
            t.countP (fun i => P (f i)) := by
          refine countP_congr4 _ _ t (fun x hx => ?_)
          have : x ≠ q := fun h => hat (h ▸ hx)
          rw [Function.update_noteq this]
        rw [hcongr, Function.update_same]
        omega
      · have haq : a ≠ q := fun h => hat (h ▸ hqt)
        rw [Function.update_noteq haq]
        have := ih hndt hqt
        omega

lemma countP_and_not (a k : Fin 4 → Bool) :
    ∀ l : List (Fin 4), (∀ x ∈ l, k x = true → a x = true) →
      l.countP (fun x => a x && !k x) + l.countP k = l.countP a := by
  intro l
  induction l with
  | nil => intro _; simp
  | cons x t ih =>
      intro h
      rw [List.countP_cons, List.countP_cons, List.countP_cons]
      have ht := ih (fun y hy => h y (by simp [hy]))
      cases hk : k x
      · cases ha : a x <;> simp [hk, ha] <;> omega
      · have := h x (by simp) hk
        simp [hk, this]
        omega

/-! ### Per-slot facts about the attack loop body -/

lemma hitCond_active {aR aC : Int} {i q : Fin 4} {p : Player}
    (h : hitCond aR aC i q p = true) : p.active = true := by
  unfold hitCond at h
  simp only [Bool.and_eq_true] at h
  exact h.1.1

lemma killCond_hit {aR aC : Int} {i q : Fin 4} {p : Player}
    (h : killCond aR aC i q p = true) : hitCond aR aC i q p = true := by
  unfold killCond at h
  simp only [Bool.and_eq_true] at h
  exact h.1

lemma attackSlot_row (aR aC : Int) (i q : Fin 4) (p : Player) :
    (attackSlot aR aC i q p).row = p.row := by
  unfold attackSlot; split_ifs <;> rfl

lemma attackSlot_col (aR aC : Int) (i q : Fin 4) (p : Player) :
    (attackSlot aR aC i q p).col = p.col := by
  unfold attackSlot; split_ifs <;> rfl

lemma attackSlot_active (aR aC : Int) (i q : Fin 4) (p : Player) :
    (attackSlot aR aC i q p).active = (p.active && !killCond aR aC i q p) := by
  unfold attackSlot killCond
  split_ifs with h1 h2
  · simp [h1, h2, hitCond_active h1]
  · simp [h1, h2]
  · simp [h1]

lemma attackSlot_of_not_hit {aR aC : Int} {i q : Fin 4} {p : Player}
    (h : ¬hitCond aR aC i q p = true) : attackSlot aR aC i q p = p := by
  unfold attackSlot; rw [if_neg h]

lemma attackSlot_sockInv (aR aC : Int) (i q : Fin 4) (p : Player)
    (h : p.active = true → 0 ≤ p.socket_fd) :
    (attackSlot aR aC i q p).active = true → 0 ≤ (attackSlot aR aC i q p).socket_fd := by
  unfold attackSlot
  split_ifs with h1 h2
  · intro hf; simp at hf
  · intro _; exact h (hitCond_active h1)
  · exact h

lemma pruneCond_active {fails : Fin 4 → Bool} {q : Fin 4} {p : Player}
    (h : pruneCond fails q p = true) : p.active = true := by
  unfold pruneCond at h
  simp only [Bool.and_eq_true] at h
  exact h.1.1

lemma pruneSlot_row (fails : Fin 4 → Bool) (q : Fin 4) (p : Player) :
    (pruneSlot fails q p).row = p.row := by
  unfold pruneSlot; split_ifs <;> rfl

lemma pruneSlot_col (fails : Fin 4 → Bool) (q : Fin 4) (p : Player) :
    (pruneSlot fails q p).col = p.col := by
  unfold pruneSlot; split_ifs <;> rfl

lemma pruneSlot_active (fails : Fin 4 → Bool) (q : Fin 4) (p : Player) :
    (pruneSlot fails q p).active = (p.active && !pruneCond fails q p) := by
  unfold pruneSlot
  split_ifs with h1
  · simp [h1]
  · simp [h1]

/-! ### Pointwise characterization of the attack loop and the broadcast loop -/

lemma attackGo_eq (aR aC : Int) (i : Fin 4) :
    ∀ l : List (Fin 4), l.Nodup → ∀ (s : GameState) (hit : Bool),
      attackGo aR aC i l s hit =
        ({ players := fun q => if q ∈ l then attackSlot aR aC i q (s.players q) else s.players q,
           player_count := s.player_count -
             (l.countP (fun q => killCond aR aC i q (s.players q)) : Int) },
         (hit || l.any (fun q => hitCond aR aC i q (s.players q)))) := by
  intro l
  induction l with
  | nil =>
      intro _ s hit
      simp [attackGo]
  | cons q rest ih =>
      intro hnd s hit
      rw [List.nodup_cons] at hnd
      obtain ⟨hqr, hrest⟩ := hnd
      by_cases hc : hitCond aR aC i q (s.players q) = true
      · rw [attackGo, if_pos hc, ih hrest]
        refine Prod.ext ?_ ?_
        · refine GameState.ext ?_ ?_
          · funext x
            by_cases hx : x = q
            · subst hx
              simp [hqr, Function.update_same]
            · simp only [Function.update_noteq hx, List.mem_cons]
              rcases Decidable.em (x ∈ rest) with hm | hm <;> simp [hm, hx]
          · have hcongr : rest.countP
                  (fun x => killCond aR aC i x
                    (Function.update s.players q (attackSlot aR aC i q (s.players q)) x)) =
                rest.countP (fun x => killCond aR aC i x (s.players x)) := by
              refine countP_congr4 _ _ rest (fun x hx => ?_)
              have : x ≠ q := fun h => hqr (h ▸ hx)
              rw [Function.update_noteq this]
            show s.player_count - _ - _ = _
            rw [hcongr, List.countP_cons]
            cases hk : killCond aR aC i q (s.players q)
            all_goals simp [hk]
            all_goals omega
        · simp [List.any_cons, hc]
      · rw [attackGo, if_neg hc, ih hrest]
        refine Prod.ext ?_ ?_
        · refine GameState.ext ?_ ?_
          · funext x
            by_cases hx : x = q
            · subst hx
              simp [hqr, List.mem_cons, attackSlot_of_not_hit hc]
            · simp only [List.mem_cons]
              rcases Decidable.em (x ∈ rest) with hm | hm <;> simp [hm, hx]
          · have hk : killCond aR aC i q (s.players q) = false := by
              cases h : killCond aR aC i q (s.players q)
              · rfl
              · exact absurd (killCond_hit h) hc
            simp [List.countP_cons, hk]
        · have hcb : hitCond aR aC i q (s.players q) = false := by
            cases h : hitCond aR aC i q (s.players q)
            · rfl
            · exact absurd h hc
          simp [List.any_cons, hcb]

lemma pruneGo_eq (fails : Fin 4 → Bool) :
    ∀ l : List (Fin 4), l.Nodup → ∀ s : GameState,
      pruneGo fails l s =
        { players := fun q => if q ∈ l then pruneSlot fails q (s.players q) else s.players q,
          player_count := s.player_count -
            (l.countP (fun q => pruneCond fails q (s.players q)) : Int) } := by
  intro l
  induction l with
  | nil =>
      intro _ s
      simp [pruneGo]
  | cons q rest ih =>
      intro hnd s
      rw [List.nodup_cons] at hnd
      obtain ⟨hqr, hrest⟩ := hnd
      by_cases hc : pruneCond fails q (s.players q) = true
      · rw [pruneGo, if_pos hc, ih hrest]
        refine GameState.ext ?_ ?_
        · funext x
          by_cases hx : x = q
          · subst hx
            simp [hqr, Function.update_same]
          · simp only [Function.update_noteq hx, List.mem_cons]
            rcases Decidable.em (x ∈ rest) with hm | hm <;> simp [hm, hx]
        · have hcongr : rest.countP
                (fun x => pruneCond fails x
                  (Function.update s.players q (pruneSlot fails q (s.players q)) x)) =
              rest.countP (fun x => pruneCond fails x (s.players x)) := by
            refine countP_congr4 _ _ rest (fun x hx => ?_)
            have : x ≠ q := fun h => hqr (h ▸ hx)
            rw [Function.update_noteq this]
          show s.player_count - 1 - _ = _
          rw [hcongr, List.countP_cons]
          simp [hc]
          all_goals omega
      · rw [pruneGo, if_neg hc, ih hrest]
        refine GameState.ext ?_ ?_
        · funext x
          by_cases hx : x = q
          · have hps : pruneSlot fails q (s.players q) = s.players q := by
              unfold pruneSlot; rw [if_neg hc]
            subst hx
            simp [hqr, List.mem_cons, hps]
          · simp only [List.mem_cons]
            rcases Decidable.em (x ∈ rest) with hm | hm <;> simp [hm, hx]
        · have hcf : pruneCond fails q (s.players q) = false := by
            cases h : pruneCond fails q (s.players q)
            · rfl
            · exact absurd h hc
          simp [List.countP_cons, hcf]

/-! ### Broadcast pass, spawn sampling, free-slot scan -/

lemma broadcastPrune_eq (fails : Fin 4 → Bool) (s : GameState) :
    broadcastPrune fails s =
      { players := fun q => pruneSlot fails q (s.players q),
        player_count := s.player_count -
          ((List.finRange 4).countP (fun q => pruneCond fails q (s.players q)) : Int) } := by
  unfold broadcastPrune
  rw [pruneGo_eq fails (List.finRange 4) nodup_finRange4 s]
  refine GameState.ext ?_ rfl
  funext x
  simp [mem_finRange4]

lemma cellBlocked_iff (s : GameState) (idx : Fin 4) (r c : Int) :
    cellBlocked s idx r c = true ↔
      ∃ j : Fin 4, j ≠ idx ∧ (s.players j).active = true ∧
        (s.players j).row = r ∧ (s.players j).col = c := by
  unfold cellBlocked
  rw [List.any_eq_true]
  constructor
  · rintro ⟨j, _, hj⟩
    simp only [Bool.and_eq_true, bne_iff_ne, beq_iff_eq] at hj
    exact ⟨j, hj.1.1.2, hj.1.1.1, hj.1.2, hj.2⟩
  · rintro ⟨j, hne, hact, hr, hc⟩
    exact ⟨j, mem_finRange4 j, by simp [hact, hne, hr, hc]⟩

lemma cellBlocked_congr (s s' : GameState) (idx : Fin 4)
    (h : ∀ j : Fin 4, j ≠ idx → s'.players j = s.players j) (r c : Int) :
    cellBlocked s' idx r c = cellBlocked s idx r c := by
  unfold cellBlocked
  refine any_congr4 _ _ _ (fun j _ => ?_)
  by_cases hj : j = idx
  · subst hj; simp
  · rw [h j hj]

lemma samplePos_sound (obs : Int → Int → Bool) (s : GameState) (idx : Fin 4) :
    ∀ (draws : List (Fin 5 × Fin 5)) (r c : Int),
      samplePos obs s idx draws = some (r, c) →
      0 ≤ r ∧ r < GRID_SIZE ∧ 0 ≤ c ∧ c < GRID_SIZE ∧
        obs r c = false ∧ cellBlocked s idx r c = false := by
  intro draws
  induction draws with
  | nil => intro r c h; simp [samplePos] at h
  | cons d rest ih =>
      intro r c h
      rw [samplePos] at h
      split_ifs at h with hcond
      · exact ih r c h
      · rw [Option.some.injEq, Prod.mk.injEq] at h
        obtain ⟨rfl, rfl⟩ := h
        rw [not_or] at hcond
        obtain ⟨ho, hb⟩ := hcond
        have h1 := d.1.isLt
        have h2 := d.2.isLt
        unfold GRID_SIZE
        refine ⟨by omega, by omega, by omega, by omega, by simpa using ho, by simpa using hb⟩

lemma samplePos_term (obs : Int → Int → Bool) (s : GameState) (idx : Fin 4) :
    ∀ draws : List (Fin 5 × Fin 5),
      (∃ d ∈ draws, obs (d.1.val : Int) (d.2.val : Int) = false ∧
          cellBlocked s idx (d.1.val : Int) (d.2.val : Int) = false) →
      ∃ rc, samplePos obs s idx draws = some rc := by
  intro draws
  induction draws with
  | nil => rintro ⟨d, hd, _⟩; simp at hd
  | cons d rest ih =>
      rintro ⟨e, he, ho, hb⟩
      rw [samplePos]
      split_ifs with hcond
      · rcases List.mem_cons.mp he with rfl | hmem
        · rcases hcond with h | h
          · rw [ho] at h; exact absurd h (by simp)
          · rw [hb] at h; exact absurd h (by simp)
        · exact ih ⟨e, hmem, ho, hb⟩
      · exact ⟨_, rfl⟩

lemma findFree_first (s : GameState) (idx : Fin 4) (h : findFree s = some idx) :
    (s.players idx).active = false ∧
      ∀ j : Fin 4, j < idx → (s.players j).active = true := by
  unfold findFree at h
  have e : (List.finRange 4 : List (Fin 4)) = [0, 1, 2, 3] := by decide
  rw [e] at h
  by_cases h0 : (s.players 0).active = true
  · by_cases h1 : (s.players 1).active = true
    · by_cases h2 : (s.players 2).active = true
      · by_cases h3 : (s.players 3).active = true
        · simp [List.find?, h0, h1, h2, h3] at h
        · simp [List.find?, h0, h1, h2, h3] at h
          subst h
          refine ⟨by simpa using h3, fun j hj => ?_⟩
          fin_cases j <;> simp_all
      · simp [List.find?, h0, h1, h2] at h
        subst h
        refine ⟨by simpa using h2, fun j hj => ?_⟩
        fin_cases j <;> simp_all
    · simp [List.find?, h0, h1] at h
      subst h
      refine ⟨by simpa using h1, fun j hj => ?_⟩
      fin_cases j <;> simp_all
  · simp [List.find?, h0] at h
    subst h
    refine ⟨by simpa using h0, fun j hj => ?_⟩
    fin_cases j <;> simp_all

lemma attackSlot_active_imp {aR aC : Int} {i q : Fin 4} {p : Player}
    (h : (attackSlot aR aC i q p).active = true) : p.active = true := by
  rw [attackSlot_active] at h
  simp only [Bool.and_eq_true] at h
  exact h.1

lemma pruneSlot_active_imp {fails : Fin 4 → Bool} {q : Fin 4} {p : Player}
    (h : (pruneSlot fails q p).active = true) : p.active = true := by
  rw [pruneSlot_active] at h
  simp only [Bool.and_eq_true] at h
  exact h.1

lemma pruneSlot_sockInv (fails : Fin 4 → Bool) (q : Fin 4) (p : Player)
    (h : p.active = true → 0 ≤ p.socket_fd) :
    (pruneSlot fails q p).active = true → 0 ≤ (pruneSlot fails q p).socket_fd := by
  unfold pruneSlot
  split_ifs with h1
  · intro hf; simp at hf
  · exact h

lemma posInv_pointwise (obs : Int → Int → Bool) {s s' : GameState}
    (h : ∀ q : Fin 4, (s'.players q).active = true →
        (s'.players q).row = (s.players q).row ∧ (s'.players q).col = (s.players q).col ∧
          (s.players q).active = true)
    (hs : PosInv obs s) : PosInv obs s' := by
  constructor
  · intro i hi
    obtain ⟨hr, hc, ha⟩ := h i hi
    rw [hr, hc]
    exact hs.1 i ha
  · intro i j hij hi hj
    obtain ⟨hri, hci, hai⟩ := h i hi
    obtain ⟨hrj, hcj, haj⟩ := h j hj
    rw [hri, hci, hrj, hcj]
    exact hs.2 i j hij hai haj

lemma countP_update_active (s : GameState) (i : Fin 4) (p' : Player) :
    ((List.finRange 4).countP fun j => (Function.update s.players i p' j).active) +
      (if (s.players i).active then 1 else 0) =
    countOccupied s + (if p'.active then 1 else 0) :=
  countP_update_mem (fun p => p.active) s.players i p' (List.finRange 4)
    nodup_finRange4 (mem_finRange4 i)

lemma posInv_occupy (obs : Int → Int → Bool) (s : GameState) (idx : Fin 4)
    (r c : Int) (p' : Player) (n : Int)
    (hr : p'.row = r) (hc : p'.col = c)
    (h0 : 0 ≤ r) (h1 : r < GRID_SIZE) (h2 : 0 ≤ c) (h3 : c < GRID_SIZE)
    (hobs : obs r c = false) (hblock : cellBlocked s idx r c = false)
    (hs : PosInv obs s) :
    PosInv obs { players := Function.update s.players idx p', player_count := n } := by
  constructor
  · intro q hq
    dsimp only at hq ⊢
    by_cases hqi : q = idx
    · subst hqi
      rw [Function.update_same]
      rw [hr, hc]
      exact ⟨h0, h1, h2, h3, hobs⟩
    · rw [Function.update_noteq hqi] at hq ⊢
      exact hs.1 q hq
  · intro a b hab ha hb
    dsimp only at ha hb ⊢
    by_cases hai : a = idx
    · have hbi : b ≠ idx := fun hh => hab (hai.trans hh.symm)
      rw [hai]
      rw [Function.update_same, Function.update_noteq hbi]
      rw [Function.update_noteq hbi] at hb
      rintro ⟨hre, hce⟩
      rw [hr] at hre
      rw [hc] at hce
      have hcb : cellBlocked s idx r c = true :=
        (cellBlocked_iff s idx r c).mpr ⟨b, hbi, hb, hre.symm, hce.symm⟩
      rw [hblock] at hcb
      exact absurd hcb (by simp)
    · by_cases hbi : b = idx
      · rw [hbi]
        rw [Function.update_noteq hai] at ha
        rw [Function.update_noteq hai, Function.update_same]
        rintro ⟨hre, hce⟩
        rw [hr] at hre
        rw [hc] at hce
        have hcb : cellBlocked s idx r c = true :=
          (cellBlocked_iff s idx r c).mpr ⟨a, hai, ha, hre, hce⟩
        rw [hblock] at hcb
        exact absurd hcb (by simp)
      · rw [Function.update_noteq hai] at ha ⊢
        rw [Function.update_noteq hbi] at hb ⊢
        exact hs.2 a b hab ha hb

lemma sockInv_update (s : GameState) (i : Fin 4) (p' : Player) (n : Int)
    (hp' : p'.active = true → 0 ≤ p'.socket_fd) (hs : SockInv s) :
    SockInv { players := Function.update s.players i p', player_count := n } := by
  intro q hq
  dsimp only at hq ⊢
  by_cases hqi : q = i
  · subst hqi
    rw [Function.update_same] at hq ⊢
    exact hp' hq
  · rw [Function.update_noteq hqi] at hq ⊢
    exact hs q hq

lemma moveResolve_posInv (obs : Int → Int → Bool) (s : GameState) (i : Fin 4)
    (newR newC : Int) (hs : PosInv obs s) :
    PosInv obs (moveResolve obs s i newR newC).state := by
  unfold moveResolve
  split_ifs with h1 h2 h3
  · exact hs
  · exact hs
  · exact hs
  · push_neg at h1
    obtain ⟨hr0, hr5, hc0, hc5⟩ := h1
    unfold movedState
    exact posInv_occupy obs s i newR newC _ _ rfl rfl hr0 hr5 hc0 hc5
      (by simpa using h2) (by simpa using h3) hs

lemma moveResolve_countInv (obs : Int → Int → Bool) (s : GameState) (i : Fin 4)
    (newR newC : Int) (hs : CountInv s) :
    CountInv (moveResolve obs s i newR newC).state := by
  unfold moveResolve
  split_ifs with h1 h2 h3
  · exact hs
  · exact hs
  · exact hs
  · unfold CountInv countOccupied at hs ⊢
    unfold movedState
    dsimp only
    have h := countP_update_active s i { s.players i with row := newR, col := newC }
    unfold countOccupied at h
    dsimp only at h
    omega

lemma moveResolve_sockInv (obs : Int → Int → Bool) (s : GameState) (i : Fin 4)
    (newR newC : Int) (hs : SockInv s) :
    SockInv (moveResolve obs s i newR newC).state := by
  unfold moveResolve
  split_ifs with h1 h2 h3
  · exact hs
  · exact hs
  · exact hs
  · unfold movedState
    exact sockInv_update s i _ _ (fun h => hs i h) hs

lemma attack_state_posInv (obs : Int → Int → Bool) (s : GameState) (i : Fin 4)
    (hs : PosInv obs s) :
    PosInv obs (attackGo (s.players i).row (s.players i).col i (List.finRange 4) s false).1 := by
  rw [attackGo_eq _ _ _ _ nodup_finRange4]
  refine posInv_pointwise obs ?_ hs
  intro q hq
  dsimp only at hq ⊢
  rw [if_pos (mem_finRange4 q)] at hq ⊢
  exact ⟨attackSlot_row _ _ _ _ _, attackSlot_col _ _ _ _ _, attackSlot_active_imp hq⟩

lemma attack_state_countInv (s : GameState) (i : Fin 4) (hs : CountInv s) :
    CountInv (attackGo (s.players i).row (s.players i).col i (List.finRange 4) s false).1 := by
  rw [attackGo_eq _ _ _ _ nodup_finRange4]
  unfold CountInv countOccupied at hs ⊢
  dsimp only
  have h1 : ((List.finRange 4).countP fun q =>
        (if q ∈ (List.finRange 4 : List (Fin 4)) then
            attackSlot (s.players i).row (s.players i).col i q (s.players q)
          else s.players q).active) =
      (List.finRange 4).countP fun q =>
        ((s.players q).active && !killCond (s.players i).row (s.players i).col i q (s.players q)) := by
    refine countP_congr4 _ _ _ (fun x hx => ?_)
    rw [if_pos hx, attackSlot_active]
  have h2 : ((List.finRange 4).countP fun q =>
        ((s.players q).active && !killCond (s.players i).row (s.players i).col i q (s.players q))) +
      ((List.finRange 4).countP fun q =>
        killCond (s.players i).row (s.players i).col i q (s.players q)) =
      (List.finRange 4).countP fun q => (s.players q).active :=
    countP_and_not (fun q => (s.players q).active)
      (fun q => killCond (s.players i).row (s.players i).col i q (s.players q))
      (List.finRange 4) (fun x _ hk => hitCond_active (killCond_hit hk))
  omega

lemma attack_state_sockInv (s : GameState) (i : Fin 4) (hs : SockInv s) :
    SockInv (attackGo (s.players i).row (s.players i).col i (List.finRange 4) s false).1 := by
  rw [attackGo_eq _ _ _ _ nodup_finRange4]
  intro q hq
  dsimp only at hq ⊢
  rw [if_pos (mem_finRange4 q)] at hq ⊢
  exact attackSlot_sockInv _ _ _ _ _ (hs q) hq

lemma broadcastPrune_posInv (obs : Int → Int → Bool) (fails : Fin 4 → Bool)
    (s : GameState) (hs : PosInv obs s) : PosInv obs (broadcastPrune fails s) := by
  rw [broadcastPrune_eq]
  refine posInv_pointwise obs ?_ hs
  intro q hq
  dsimp only at hq ⊢
  exact ⟨pruneSlot_row _ _ _, pruneSlot_col _ _ _, pruneSlot_active_imp hq⟩

lemma broadcastPrune_countInv (fails : Fin 4 → Bool) (s : GameState)
    (hs : CountInv s) : CountInv (broadcastPrune fails s) := by
  rw [broadcastPrune_eq]
  unfold CountInv countOccupied at hs ⊢
  dsimp only
  have h1 : ((List.finRange 4).countP fun q => (pruneSlot fails q (s.players q)).active) =
      (List.finRange 4).countP fun q =>
        ((s.players q).active && !pruneCond fails q (s.players q)) := by
    refine countP_congr4 _ _ _ (fun x _ => ?_)
    rw [pruneSlot_active]
  have h2 : ((List.finRange 4).countP fun q =>
        ((s.players q).active && !pruneCond fails q (s.players q))) +
      ((List.finRange 4).countP fun q => pruneCond fails q (s.players q)) =
      (List.finRange 4).countP fun q => (s.players q).active :=
    countP_and_not (fun q => (s.players q).active)
      (fun q => pruneCond fails q (s.players q))
      (List.finRange 4) (fun x _ hk => pruneCond_active hk)
  omega

lemma broadcastPrune_sockInv (fails : Fin 4 → Bool) (s : GameState)
    (hs : SockInv s) : SockInv (broadcastPrune fails s) := by
  rw [broadcastPrune_eq]
  intro q hq
  dsimp only at hq ⊢
  exact pruneSlot_sockInv fails q (s.players q) (hs q) hq

lemma handleLine_posInv (obs : Int → Int → Bool) (s : GameState) (i : Fin 4)
    (line : List Char) (hs : PosInv obs s) :
    PosInv obs (handleLine obs s i line).state := by
  unfold handleLine
  by_cases hm : startsWithMove line = true
  · rw [if_pos hm]
    cases hscan : scanToken (line.drop 4) with
    | none => exact hs
    | some tok =>
        dsimp only
        split_ifs
        · exact moveResolve_posInv obs s i _ _ hs
        · exact moveResolve_posInv obs s i _ _ hs
        · exact moveResolve_posInv obs s i _ _ hs
        · exact moveResolve_posInv obs s i _ _ hs
        · exact hs
  · rw [if_neg hm]
    by_cases hatk : ciEq line ("ATTACK".toList) = true
    · rw [if_pos hatk]
      dsimp only
      split_ifs
      · exact attack_state_posInv obs s i hs
      · exact attack_state_posInv obs s i hs
    · rw [if_neg hatk]
      by_cases hq : ciEq line ("QUIT".toList) = true
      · rw [if_pos hq]
        unfold freedState
        dsimp only
        refine posInv_pointwise obs ?_ hs
        intro q hq'
        dsimp only at hq' ⊢
        by_cases hqi : q = i
        · subst hqi
          rw [Function.update_same] at hq'
          simp at hq'
        · rw [Function.update_noteq hqi] at hq' ⊢
          exact ⟨rfl, rfl, hq'⟩
      · rw [if_neg hq]
        exact hs

lemma handleLine_countInv (obs : Int → Int → Bool) (s : GameState) (i : Fin 4)
    (line : List Char) (hact : (s.players i).active = true) (hs : CountInv s) :
    CountInv (handleLine obs s i line).state := by
  unfold handleLine
  by_cases hm : startsWithMove line = true
  · rw [if_pos hm]
    cases hscan : scanToken (line.drop 4) with
    | none => exact hs
    | some tok =>
        dsimp only
        split_ifs
        · exact moveResolve_countInv obs s i _ _ hs
        · exact moveResolve_countInv obs s i _ _ hs
        · exact moveResolve_countInv obs s i _ _ hs
        · exact moveResolve_countInv obs s i _ _ hs
        · exact hs
  · rw [if_neg hm]
    by_cases hatk : ciEq line ("ATTACK".toList) = true
    · rw [if_pos hatk]
      dsimp only
      split_ifs
      · exact attack_state_countInv s i hs
      · exact attack_state_countInv s i hs
    · rw [if_neg hatk]
      by_cases hq : ciEq line ("QUIT".toList) = true
      · rw [if_pos hq]
        unfold CountInv countOccupied at hs ⊢
        unfold freedState
        dsimp only
        have h := countP_update_active s i { s.players i with socket_fd := -1, active := false }
        unfold countOccupied at h
        dsimp only at h
        rw [hact] at h
        simp only [if_true, if_false, Bool.false_eq_true] at h
        omega
      · rw [if_neg hq]
        exact hs

lemma handleLine_sockInv (obs : Int → Int → Bool) (s : GameState) (i : Fin 4)
    (line : List Char) (hs : SockInv s) :
    SockInv (handleLine obs s i line).state := by
  unfold handleLine
  by_cases hm : startsWithMove line = true
  · rw [if_pos hm]
    cases hscan : scanToken (line.drop 4) with
    | none => exact hs
    | some tok =>
        dsimp only
        split_ifs
        · exact moveResolve_sockInv obs s i _ _ hs
        · exact moveResolve_sockInv obs s i _ _ hs
        · exact moveResolve_sockInv obs s i _ _ hs
        · exact moveResolve_sockInv obs s i _ _ hs
        · exact hs
  · rw [if_neg hm]
    by_cases hatk : ciEq line ("ATTACK".toList) = true
    · rw [if_pos hatk]
      dsimp only
      split_ifs
      · exact attack_state_sockInv s i hs
      · exact attack_state_sockInv s i hs
    · rw [if_neg hatk]
      by_cases hq : ciEq line ("QUIT".toList) = true
      · rw [if_pos hq]
        unfold freedState
        dsimp only
        refine sockInv_update s i _ _ (fun h => ?_) hs
        simp at h
      · rw [if_neg hq]
        exact hs

lemma joinStep_spec (obs : Int → Int → Bool) (s : GameState) (fd : Int)
    (draws : List (Fin 5 × Fin 5)) (res : LineResult)
    (h : joinStep obs s fd draws = some res) :
    res.state = s ∨
      ∃ (idx : Fin 4) (r c : Int),
        findFree s = some idx ∧
        0 ≤ r ∧ r < GRID_SIZE ∧ 0 ≤ c ∧ c < GRID_SIZE ∧ obs r c = false ∧
        cellBlocked s idx r c = false ∧
        res = ⟨joinedState s idx fd r c, none, true⟩ := by
  unfold joinStep at h
  split_ifs at h with hfull
  · left
    have := Option.some.inj h
    rw [← this]
  · cases hff : findFree s with
    | none =>
        rw [hff] at h
        dsimp only at h
        left
        have := Option.some.inj h
        rw [← this]
    | some idx =>
        rw [hff] at h
        dsimp only at h
        cases hsp : samplePos obs
            { players := Function.update s.players idx (occupyPre (s.players idx) fd),
              player_count := s.player_count } idx draws with
        | none =>
            rw [hsp] at h
            simp at h
        | some rc =>
            rw [hsp] at h
            dsimp only at h
            right
            obtain ⟨r, c⟩ := rc
            have hsound := samplePos_sound obs _ idx draws r c hsp
            obtain ⟨hr0, hr5, hc0, hc5, hobs, hblock⟩ := hsound
            have hcongr : cellBlocked
                { players := Function.update s.players idx (occupyPre (s.players idx) fd),
                  player_count := s.player_count } idx r c = cellBlocked s idx r c := by
              refine cellBlocked_congr s _ idx (fun j hj => ?_) r c
              dsimp only
              rw [Function.update_noteq hj]
            rw [hcongr] at hblock
            refine ⟨idx, r, c, rfl, hr0, hr5, hc0, hc5, hobs, hblock, ?_⟩
            have := Option.some.inj h
            rw [← this]

lemma joinStep_posInv (obs : Int → Int → Bool) (s : GameState) (fd : Int)
    (draws : List (Fin 5 × Fin 5)) (res : LineResult)
    (h : joinStep obs s fd draws = some res) (hs : PosInv obs s) :
    PosInv obs res.state := by
  rcases joinStep_spec obs s fd draws res h with he | ⟨idx, r, c, _, hr0, hr5, hc0, hc5, hobs, hblock, he⟩
  · rw [he]; exact hs
  · rw [he]
    exact posInv_occupy obs s idx r c (occupySlot (s.players idx) fd r c)
      (s.player_count + 1) rfl rfl hr0 hr5 hc0 hc5 hobs hblock hs

lemma joinStep_countInv (obs : Int → Int → Bool) (s : GameState) (fd : Int)
    (draws : List (Fin 5 × Fin 5)) (res : LineResult)
    (h : joinStep obs s fd draws = some res) (hs : CountInv s) :
    CountInv res.state := by
  rcases joinStep_spec obs s fd draws res h with he | ⟨idx, r, c, hff, _, _, _, _, _, _, he⟩
  · rw [he]; exact hs
  · rw [he]
    have hfree : (s.players idx).active = false := (findFree_first s idx hff).1
    unfold CountInv countOccupied at hs
    unfold CountInv countOccupied joinedState
    dsimp only
    have hcu := countP_update_active s idx (occupySlot (s.players idx) fd r c)
    unfold countOccupied at hcu
    rw [hfree] at hcu
    have hocc : (occupySlot (s.players idx) fd r c).active = true := rfl
    rw [hocc] at hcu
    simp only [Bool.false_eq_true, if_false, if_true] at hcu
    omega

lemma joinStep_sockInv (obs : Int → Int → Bool) (s : GameState) (fd : Int)
    (draws : List (Fin 5 × Fin 5)) (res : LineResult) (hfd : 0 ≤ fd)
    (h : joinStep obs s fd draws = some res) (hs : SockInv s) :
    SockInv res.state := by
  rcases joinStep_spec obs s fd draws res h with he | ⟨idx, r, c, _, _, _, _, _, _, _, he⟩
  · rw [he]; exact hs
  · rw [he]
    exact sockInv_update s idx (occupySlot (s.players idx) fd r c)
      (s.player_count + 1) (fun _ => hfd) hs

lemma disconnectStep_posInv (obs : Int → Int → Bool) (s : GameState) (i : Fin 4)
    (hs : PosInv obs s) : PosInv obs (disconnectStep s i).state := by
  unfold disconnectStep
  split_ifs with hact
  · unfold freedState
    dsimp only
    refine posInv_pointwise obs ?_ hs
    intro q hq
    dsimp only at hq ⊢
    by_cases hqi : q = i
    · subst hqi
      rw [Function.update_same] at hq
      simp at hq
    · rw [Function.update_noteq hqi] at hq ⊢
      exact ⟨rfl, rfl, hq⟩
  · exact hs

lemma disconnectStep_countInv (s : GameState) (i : Fin 4) (hs : CountInv s) :
    CountInv (disconnectStep s i).state := by
  unfold disconnectStep
  split_ifs with hact
  · unfold CountInv countOccupied at hs ⊢
    unfold freedState
    dsimp only
    have h := countP_update_active s i { s.players i with socket_fd := -1, active := false }
    unfold countOccupied at h
    dsimp only at h
    rw [hact] at h
    simp only [if_true, if_false, Bool.false_eq_true] at h
    omega
  · exact hs

lemma disconnectStep_sockInv (s : GameState) (i : Fin 4) (hs : SockInv s) :
    SockInv (disconnectStep s i).state := by
  unfold disconnectStep
  split_ifs with hact
  · unfold freedState
    dsimp only
    refine sockInv_update s i _ _ (fun h => ?_) hs
    simp at h
  · exact hs

lemma threadExitCleanup_posInv (obs : Int → Int → Bool) (s : GameState) (i : Fin 4)
    (hs : PosInv obs s) : PosInv obs (threadExitCleanup s i) := by
  unfold threadExitCleanup
  split_ifs with hact
  · refine posInv_pointwise obs ?_ hs
    intro q hq
    dsimp only at hq ⊢
    by_cases hqi : q = i
    · subst hqi
      rw [Function.update_same] at hq
      simp at hq
    · rw [Function.update_noteq hqi] at hq ⊢
      exact ⟨rfl, rfl, hq⟩
  · exact hs

lemma threadExitCleanup_countInv (s : GameState) (i : Fin 4) (hs : CountInv s) :
    CountInv (threadExitCleanup s i) := by
  unfold threadExitCleanup
  split_ifs with hact
  · unfold CountInv countOccupied at hs ⊢
    dsimp only
    have h := countP_update_active s i { s.players i with active := false }
    unfold countOccupied at h
    dsimp only at h
    rw [hact] at h
    simp only [if_true, if_false, Bool.false_eq_true] at h
    omega
  · exact hs

lemma threadExitCleanup_sockInv (s : GameState) (i : Fin 4) (hs : SockInv s) :
    SockInv (threadExitCleanup s i) := by
  unfold threadExitCleanup
  split_ifs with hact
  · refine sockInv_update s i _ _ (fun h => ?_) hs
    simp at h
  · exact hs

lemma applyBroadcast_posInv (obs : Int → Int → Bool) (r : LineResult) (fails : Fin 4 → Bool)
    (hs : PosInv obs r.state) : PosInv obs (applyBroadcast r fails) := by
  unfold applyBroadcast
  split_ifs
  · exact broadcastPrune_posInv obs fails r.state hs
  · exact hs

lemma applyBroadcast_countInv (r : LineResult) (fails : Fin 4 → Bool)
    (hs : CountInv r.state) : CountInv (applyBroadcast r fails) := by
  unfold applyBroadcast
  split_ifs
  · exact broadcastPrune_countInv fails r.state hs
  · exact hs

lemma applyBroadcast_sockInv (r : LineResult) (fails : Fin 4 → Bool)
    (hs : SockInv r.state) : SockInv (applyBroadcast r fails) := by
  unfold applyBroadcast
  split_ifs
  · exact broadcastPrune_sockInv fails r.state hs
  · exact hs

lemma step_inv (obs : Int → Int → Bool) {s s' : GameState} (hstep : Step obs s s')
    (hp : PosInv obs s) (hk : SockInv s) :
    PosInv obs s' ∧ SockInv s' := by
  cases hstep with
  | cmd i line fails =>
      exact ⟨applyBroadcast_posInv obs _ fails (handleLine_posInv obs s i line hp),
        applyBroadcast_sockInv _ fails (handleLine_sockInv obs s i line hk)⟩
  | joined fd draws fails res hfd hres =>
      exact ⟨applyBroadcast_posInv obs _ fails (joinStep_posInv obs s fd draws res hres hp),
        applyBroadcast_sockInv _ fails (joinStep_sockInv obs s fd draws res hfd hres hk)⟩
  | disconnected i fails =>
      exact ⟨applyBroadcast_posInv obs _ fails (disconnectStep_posInv obs s i hp),
        applyBroadcast_sockInv _ fails (disconnectStep_sockInv s i hk)⟩
  | cleanup i =>
      exact ⟨threadExitCleanup_posInv obs s i hp,
        threadExitCleanup_sockInv s i hk⟩
  | pruned fails =>
      exact ⟨broadcastPrune_posInv obs fails s hp,
        broadcastPrune_sockInv fails s hk⟩

lemma liveStep_countInv (obs : Int → Int → Bool) {s s' : GameState}
    (hstep : LiveStep obs s s') (hc : CountInv s) : CountInv s' := by
  cases hstep with
  | cmd i line fails hact =>
      exact applyBroadcast_countInv _ fails (handleLine_countInv obs s i line hact hc)
  | joined fd draws fails res hfd hres =>
      exact applyBroadcast_countInv _ fails (joinStep_countInv obs s fd draws res hres hc)
  | disconnected i fails =>
      exact applyBroadcast_countInv _ fails (disconnectStep_countInv s i hc)
  | cleanup i => exact threadExitCleanup_countInv s i hc
  | pruned fails => exact broadcastPrune_countInv fails s hc

lemma countOccupied_freedState_of_free (s : GameState) (i : Fin 4)
    (h : (s.players i).active = false) :
    countOccupied (freedState s i) = countOccupied s := by
  have hcu := countP_update_active s i { s.players i with socket_fd := -1, active := false }
  unfold countOccupied at hcu ⊢
  unfold freedState
  dsimp only
  rw [h] at hcu
  simp only [Bool.false_eq_true, if_false] at hcu
  omega

lemma initState_posInv (obs : Int → Int → Bool) : PosInv obs initState := by
  constructor
  · intro i hi
    simp [initState, initPlayer] at hi
  · intro i j _ hi _
    simp [initState, initPlayer] at hi

lemma initState_countInv : CountInv initState := by rfl

lemma initState_sockInv : SockInv initState := by
  intro i hi
  simp [initState, initPlayer] at hi

lemma reachable_inv (obs : Int → Int → Bool) (s : GameState) (h : Reachable obs s) :
    PosInv obs s ∧ SockInv s := by
  induction h with
  | refl => exact ⟨initState_posInv obs, initState_sockInv⟩
  | tail _ hstep ih => exact step_inv obs hstep ih.1 ih.2

lemma reachableLive_countInv (obs : Int → Int → Bool) (s : GameState)
    (h : ReachableLive obs s) : CountInv s := by
  induction h with
  | refl => exact initState_countInv
  | tail _ hstep ih => exact liveStep_countInv obs hstep ih

/-! ### Parsing reductions and claim-level equivalences -/

lemma handleLine_moveUp (obs : Int → Int → Bool) (s : GameState) (i : Fin 4) :
    handleLine obs s i (String.toList "MOVE " ++ String.toList "UP") =
      moveResolve obs s i ((s.players i).row - 1) (s.players i).col := rfl

lemma handleLine_moveDown (obs : Int → Int → Bool) (s : GameState) (i : Fin 4) :
    handleLine obs s i (String.toList "MOVE " ++ String.toList "DOWN") =
      moveResolve obs s i ((s.players i).row + 1) (s.players i).col := rfl

lemma handleLine_moveLeft (obs : Int → Int → Bool) (s : GameState) (i : Fin 4) :
    handleLine obs s i (String.toList "MOVE " ++ String.toList "LEFT") =
      moveResolve obs s i (s.players i).row ((s.players i).col - 1) := rfl

lemma handleLine_moveRight (obs : Int → Int → Bool) (s : GameState) (i : Fin 4) :
    handleLine obs s i (String.toList "MOVE " ++ String.toList "RIGHT") =
      moveResolve obs s i (s.players i).row ((s.players i).col + 1) := rfl

lemma handleLine_attack (obs : Int → Int → Bool) (s : GameState) (i : Fin 4) :
    handleLine obs s i (String.toList "ATTACK") =
      (if (attackGo (s.players i).row (s.players i).col i (List.finRange 4) s false).2 then
        ⟨(attackGo (s.players i).row (s.players i).col i (List.finRange 4) s false).1, none, true⟩
      else
        ⟨(attackGo (s.players i).row (s.players i).col i (List.finRange 4) s false).1,
          some msgNoTargets, false⟩) := rfl

lemma handleLine_quit (obs : Int → Int → Bool) (s : GameState) (i : Fin 4) :
    handleLine obs s i (String.toList "QUIT") = ⟨freedState s i, none, true⟩ := rfl

lemma hitCond_iff (aR aC : Int) (i q : Fin 4) (p : Player) :
    hitCond aR aC i q p = true ↔
      p.active = true ∧ q ≠ i ∧ (p.row - aR).natAbs + (p.col - aC).natAbs = 1 := by
  unfold hitCond
  simp only [Bool.and_eq_true, Bool.or_eq_true, bne_iff_ne, beq_iff_eq]
  constructor
  · rintro ⟨⟨ha, hne⟩, hor⟩
    refine ⟨ha, hne, ?_⟩
    rcases hor with ⟨h1, h2⟩ | ⟨h1, h2⟩ <;> omega
  · rintro ⟨ha, hne, hsum⟩
    exact ⟨⟨ha, hne⟩, by omega⟩

lemma killCond_iff (aR aC : Int) (i q : Fin 4) (p : Player) :
    killCond aR aC i q p = true ↔
      (q ≠ i ∧ p.active = true ∧
        (p.row - aR).natAbs + (p.col - aC).natAbs = 1 ∧ p.hp - DAMAGE ≤ 0) := by
  unfold killCond
  simp only [Bool.and_eq_true, decide_eq_true_eq, hitCond_iff]
  constructor
  · rintro ⟨⟨ha, hne, hsum⟩, hhp⟩
    exact ⟨hne, ha, hsum, hhp⟩
  · rintro ⟨hne, ha, hsum, hhp⟩
    exact ⟨⟨ha, hne, hsum⟩, hhp⟩

lemma pruneCond_eq_of_sock (fails : Fin 4 → Bool) (q : Fin 4) (p : Player)
    (h : p.active = true → 0 ≤ p.socket_fd) :
    pruneCond fails q p = (p.active && fails q) := by
  unfold pruneCond
  cases ha : p.active
  · simp
  · have h0 := h ha
    simp [decide_eq_true h0]

lemma countOccupied_le (s : GameState) : countOccupied s ≤ 4 := by
  unfold countOccupied
  have h := List.countP_le_length (p := fun i : Fin 4 => (s.players i).active)
    (l := List.finRange 4)
  simpa using h

lemma moveResolve_cases (obs : Int → Int → Bool) (s : GameState) (i : Fin 4) (tr tc : Int) :
    ((tr < 0 ∨ GRID_SIZE ≤ tr ∨ tc < 0 ∨ GRID_SIZE ≤ tc) →
      moveResolve obs s i tr tc = ⟨s, some msgOutOfBounds, false⟩) ∧
    (0 ≤ tr → tr < GRID_SIZE → 0 ≤ tc → tc < GRID_SIZE → obs tr tc = true →
      moveResolve obs s i tr tc = ⟨s, some msgObstacle, false⟩) ∧
    (0 ≤ tr → tr < GRID_SIZE → 0 ≤ tc → tc < GRID_SIZE → obs tr tc = false →
      (∃ q : Fin 4, q ≠ i ∧ (s.players q).active = true ∧
        (s.players q).row = tr ∧ (s.players q).col = tc) →
      moveResolve obs s i tr tc = ⟨s, some msgOccupied, false⟩) ∧
    (0 ≤ tr → tr < GRID_SIZE → 0 ≤ tc → tc < GRID_SIZE → obs tr tc = false →
      (¬∃ q : Fin 4, q ≠ i ∧ (s.players q).active = true ∧
        (s.players q).row = tr ∧ (s.players q).col = tc) →
      moveResolve obs s i tr tc = ⟨movedState s i tr tc, none, true⟩) := by
  unfold moveResolve
  refine ⟨fun h => ?_, fun h1 h2 h3 h4 h5 => ?_,
    fun h1 h2 h3 h4 h5 h6 => ?_, fun h1 h2 h3 h4 h5 h6 => ?_⟩
  · rw [if_pos h]
  · rw [if_neg (by push_neg; exact ⟨h1, h2, h3, h4⟩), if_pos h5]
  · rw [if_neg (by push_neg; exact ⟨h1, h2, h3, h4⟩), if_neg (by simp [h5]),
      if_pos ((cellBlocked_iff s i tr tc).mpr h6)]
  · rw [if_neg (by push_neg; exact ⟨h1, h2, h3, h4⟩), if_neg (by simp [h5]),
      if_neg (fun hcb => h6 ((cellBlocked_iff s i tr tc).mp hcb))]


/-! ### Claim theorems -/

/-- C1: in every state reachable by join, MOVE, ATTACK, QUIT,
disconnect-cleanup and broadcast-failure steps, no two occupied slots share
a (row, col) position, and every occupied slot is inside the
GRID_SIZE x GRID_SIZE grid on a non-obstacle cell. -/
theorem c1_reachable_positions_valid (obs : Int → Int → Bool) (s : GameState)
    (h : Reachable obs s) : PosInv obs s :=
  (reachable_inv obs s h).1

/-- Witness for C1 at the initial state. -/
theorem c1_reachable_positions_valid_witness : PosInv obs0 initState :=
  c1_reachable_positions_valid obs0 initState Relation.ReflTransGen.refl

/-- C2 counterexample: one QUIT step from the initial state, submitted for
slot 0 whose occupied flag is already false (exactly what client_handler
runs when the slot was freed concurrently), reaches a state in which
player_count is -1 while no occupied flag is set, so the claimed equality
fails in a reachable state and the QUIT operation does not preserve it. -/
theorem c2_counterexample_stale_quit :
    Reachable obs0
      (applyBroadcast (handleLine obs0 initState 0 (String.toList "QUIT")) (fun _ => false)) ∧
    initState.player_count = (countOccupied initState : Int) ∧
    (applyBroadcast (handleLine obs0 initState 0 (String.toList "QUIT"))
        (fun _ => false)).player_count ≠
      (countOccupied
        (applyBroadcast (handleLine obs0 initState 0 (String.toList "QUIT"))
          (fun _ => false)) : Int) := by
  refine ⟨Relation.ReflTransGen.single
    (Step.cmd initState 0 (String.toList "QUIT") (fun _ => false)), by decide, by decide⟩

/-- C2 amended: player_count equals the number of slots with the occupied
flag set in every state reachable by live-session steps, where a command
critical section runs only while the acting slot is still occupied, and
every live-session step (command, join, disconnect-cleanup, thread-exit
cleanup, broadcast-failure pass) preserves the equality; the unguarded
QUIT section run for an already-freed slot instead decrements player_count
while clearing no occupied flag, which is the one way the equality breaks
under the unrestricted step relation. -/
theorem c2_count_matches_flags_amended (obs : Int → Int → Bool) :
    (∀ s : GameState, ReachableLive obs s → s.player_count = (countOccupied s : Int)) ∧
    (∀ s s' : GameState, s.player_count = (countOccupied s : Int) → LiveStep obs s s' →
      s'.player_count = (countOccupied s' : Int)) ∧
    (∀ (s : GameState) (i : Fin 4), (s.players i).active = false →
      (freedState s i).player_count = s.player_count - 1 ∧
      countOccupied (freedState s i) = countOccupied s) := by
  refine ⟨?_, ?_, ?_⟩
  · intro s h
    exact reachableLive_countInv obs s h
  · intro s s' hc hstep
    exact liveStep_countInv obs hstep hc
  · intro s i h
    exact ⟨rfl, countOccupied_freedState_of_free s i h⟩

/-- Witness for the amended C2: the equality at the initial state, and the
count-without-flag drop of a stale QUIT on free slot 0. -/
theorem c2_count_matches_flags_amended_witness :
    initState.player_count = (countOccupied initState : Int) ∧
    (freedState initState 0).player_count = initState.player_count - 1 ∧
    countOccupied (freedState initState 0) = countOccupied initState :=
  ⟨(c2_count_matches_flags_amended obs0).1 initState Relation.ReflTransGen.refl,
   (c2_count_matches_flags_amended obs0).2.2 initState 0 (by decide)⟩

/-- C3 counterexample: the explicit QUIT path applied to slot 0 of the
initial state, whose occupied flag is already false, still decrements
player_count, so the state does not stay unchanged. -/
theorem c3_counterexample_quit_on_free_slot :
    (initState.players 0).active = false ∧
    (handleLine obs0 initState 0 (String.toList "QUIT")).state.player_count ≠
      initState.player_count := by
  decide

/-- C3 amended: the disconnect-cleanup and thread-exit cleanup paths are
idempotent (a no-op on a slot whose occupied flag is already false, so the
count is decremented only if the slot was occupied), but the explicit QUIT
path frees unconditionally: on an already-free slot it still clears the
slot fields and decrements the occupied count by one. -/
theorem c3_free_idempotent_amended (obs : Int → Int → Bool) (s : GameState) (i : Fin 4)
    (h : (s.players i).active = false) :
    disconnectStep s i = ⟨s, none, false⟩ ∧
    threadExitCleanup s i = s ∧
    handleLine obs s i (String.toList "QUIT") = ⟨freedState s i, none, true⟩ ∧
    (freedState s i).player_count = s.player_count - 1 := by
  have hcond : ¬((s.players i).active = true) := by rw [h]; simp
  refine ⟨?_, ?_, handleLine_quit obs s i, rfl⟩
  · unfold disconnectStep
    rw [if_neg hcond]
  · unfold threadExitCleanup
    rw [if_neg hcond]

/-- Witness for the amended C3 at slot 0 of the initial state. -/
theorem c3_free_idempotent_amended_witness :
    disconnectStep initState 0 = ⟨initState, none, false⟩ ∧
    threadExitCleanup initState 0 = initState ∧
    handleLine obs0 initState 0 (String.toList "QUIT") =
      ⟨freedState initState 0, none, true⟩ ∧
    (freedState initState 0).player_count = initState.player_count - 1 :=
  c3_free_idempotent_amended obs0 initState 0 (by decide)

/-- C6 counterexample: the line MOVEUP is not a command of the spec grammar,
yet the processor treats it as MOVE UP: it mutates the acting slot's
position (from row 2 to row 1 in stateA), triggers a broadcast, and sends
no unknown-command reply. -/
theorem c6_counterexample_moveup :
    specIsCommand (String.toList "MOVEUP") = false ∧
    (handleLine obs0 stateA 0 (String.toList "MOVEUP")).reply = none ∧
    (handleLine obs0 stateA 0 (String.toList "MOVEUP")).broadcast = true ∧
    ((handleLine obs0 stateA 0 (String.toList "MOVEUP")).state.players 0).row = 1 ∧
    (stateA.players 0).row = 2 := by
  decide

/-- C6 amended: a trimmed line whose first four characters are not MOVE
case-insensitively and which is not case-insensitively equal to ATTACK or
QUIT gets exactly the unknown-command reply, caller-only, with the state
unchanged and no broadcast.  Lines that merely begin with MOVE are handled
by the MOVE branch instead (usage or invalid-direction replies, or even an
accepted move, as for MOVEUP). -/
theorem c6_unknown_command_amended (obs : Int → Int → Bool) (s : GameState) (i : Fin 4)
    (line : List Char)
    (h1 : startsWithMove line = false)
    (h2 : ciEq line (String.toList "ATTACK") = false)
    (h3 : ciEq line (String.toList "QUIT") = false) :
    handleLine obs s i line = ⟨s, some msgUnknown, false⟩ := by
  unfold handleLine
  rw [if_neg (by rw [h1]; simp), if_neg (by rw [h2]; simp), if_neg (by rw [h3]; simp)]

/-- Witness for the amended C6 on the line hello. -/
theorem c6_unknown_command_amended_witness :
    handleLine obs0 stateA 0 (String.toList "hello") = ⟨stateA, some msgUnknown, false⟩ :=
  c6_unknown_command_amended obs0 stateA 0 (String.toList "hello")
    (by decide) (by decide) (by decide)

/-- C8: in every reachable state, one broadcast delivery pass frees exactly
the occupied slots whose send fails, each exactly as Roster free does
(socket released, occupied cleared, count decremented once per failed
slot), and leaves every other slot untouched; the pass makes one visit per
slot, so a slot freed mid-pass receives no further delivery and triggers
no separate re-broadcast. -/
theorem c8_broadcast_failure_prunes (obs : Int → Int → Bool) (s : GameState)
    (h : Reachable obs s) (fails : Fin 4 → Bool) :
    broadcastPrune fails s = prunedPointwise fails s := by
  have hsock : SockInv s := (reachable_inv obs s h).2
  rw [broadcastPrune_eq]
  unfold prunedPointwise
  refine GameState.ext ?_ ?_
  · funext q
    dsimp only
    unfold pruneSlot
    rw [pruneCond_eq_of_sock fails q (s.players q) (hsock q)]
    by_cases hA : (s.players q).active = true <;> by_cases hF : fails q = true <;>
      simp [hA, hF]
  · dsimp only
    have hco : ((List.finRange 4).countP fun q => pruneCond fails q (s.players q)) =
        (List.finRange 4).countP fun q => ((s.players q).active && fails q) :=
      countP_congr4 _ _ _ (fun x _ => pruneCond_eq_of_sock fails x (s.players x) (hsock x))
    rw [hco]

/-- Witness for C8 at the initial state with every send failing. -/
theorem c8_broadcast_failure_prunes_witness :
    broadcastPrune (fun _ => true) initState = prunedPointwise (fun _ => true) initState :=
  c8_broadcast_failure_prunes obs0 initState Relation.ReflTransGen.refl (fun _ => true)

/-- C10: the ATTACK target scan equals its order-free pointwise description:
each slot index is visited exactly once, every adjacent occupied target
loses DAMAGE exactly once, a slot freed earlier in the pass is not
revisited, and the resulting healths, occupancy and count do not depend on
the order in which targets die. -/
theorem c10_attack_scan_orderfree (s : GameState) (i : Fin 4) :
    attackGo (s.players i).row (s.players i).col i (List.finRange 4) s false =
      attackPointwise s i := by
  rw [attackGo_eq _ _ _ _ nodup_finRange4]
  unfold attackPointwise
  refine Prod.ext ?_ ?_
  · refine GameState.ext ?_ rfl
    funext q
    dsimp only
    rw [if_pos (mem_finRange4 q)]
  · dsimp only
    rw [Bool.false_or]

/-- C5: a MOVE command computes its target cell from the direction offset
(UP row-1, DOWN row+1, LEFT col-1, RIGHT col+1); a target out of bounds, on
an obstacle, or holding a different active slot leaves the whole state
unchanged with no broadcast and only the corresponding caller-only message;
otherwise exactly the acting slot's position is set to the target
(movedState changes one slot and keeps the count) and exactly one broadcast
is triggered. -/
theorem c5_move_resolution (obs : Int → Int → Bool) (s : GameState) (i : Fin 4)
    (d : List Char) (tr tc : Int) (_hact : (s.players i).active = true)
    (hd : (d = String.toList "UP" ∧ tr = (s.players i).row - 1 ∧ tc = (s.players i).col) ∨
          (d = String.toList "DOWN" ∧ tr = (s.players i).row + 1 ∧ tc = (s.players i).col) ∨
          (d = String.toList "LEFT" ∧ tr = (s.players i).row ∧ tc = (s.players i).col - 1) ∨
          (d = String.toList "RIGHT" ∧ tr = (s.players i).row ∧ tc = (s.players i).col + 1)) :
    handleLine obs s i (String.toList "MOVE " ++ d) = moveResolve obs s i tr tc ∧
    ((tr < 0 ∨ GRID_SIZE ≤ tr ∨ tc < 0 ∨ GRID_SIZE ≤ tc) →
      moveResolve obs s i tr tc = ⟨s, some msgOutOfBounds, false⟩) ∧
    (0 ≤ tr → tr < GRID_SIZE → 0 ≤ tc → tc < GRID_SIZE → obs tr tc = true →
      moveResolve obs s i tr tc = ⟨s, some msgObstacle, false⟩) ∧
    (0 ≤ tr → tr < GRID_SIZE → 0 ≤ tc → tc < GRID_SIZE → obs tr tc = false →
      (∃ q : Fin 4, q ≠ i ∧ (s.players q).active = true ∧
        (s.players q).row = tr ∧ (s.players q).col = tc) →
      moveResolve obs s i tr tc = ⟨s, some msgOccupied, false⟩) ∧
    (0 ≤ tr → tr < GRID_SIZE → 0 ≤ tc → tc < GRID_SIZE → obs tr tc = false →
      (¬∃ q : Fin 4, q ≠ i ∧ (s.players q).active = true ∧
        (s.players q).row = tr ∧ (s.players q).col = tc) →
      moveResolve obs s i tr tc = ⟨movedState s i tr tc, none, true⟩) := by
  refine ⟨?_, moveResolve_cases obs s i tr tc⟩
  rcases hd with ⟨rfl, rfl, rfl⟩ | ⟨rfl, rfl, rfl⟩ | ⟨rfl, rfl, rfl⟩ | ⟨rfl, rfl, rfl⟩
  · exact handleLine_moveUp obs s i
  · exact handleLine_moveDown obs s i
  · exact handleLine_moveLeft obs s i
  · exact handleLine_moveRight obs s i

/-- Witness for C5: in stateA the single player at (2,2) moves up to (1,2). -/
theorem c5_move_resolution_witness :
    handleLine obs0 stateA 0 (String.toList "MOVE " ++ String.toList "UP") =
      moveResolve obs0 stateA 0 1 2 :=
  (c5_move_resolution obs0 stateA 0 (String.toList "UP") 1 2 (by decide)
    (Or.inl ⟨rfl, by decide, by decide⟩)).1

/-- C4: resolving ATTACK for an occupied acting slot subtracts exactly
DAMAGE from every other occupied slot at Manhattan distance exactly 1 from
the attacker and from no other slot; a slot whose health drops to zero or
below is clamped to 0 and freed (socket released, occupied cleared) within
the same resolution, with the count dropping by the number of killed slots,
all before the single broadcast; if no slot was adjacent, the attacker
alone receives the no-targets reply and the state is returned unchanged
with no broadcast. -/
theorem c4_attack_resolution (obs : Int → Int → Bool) (s : GameState) (i : Fin 4)
    (_hact : (s.players i).active = true) :
    (∀ q : Fin 4, q ≠ i → (s.players q).active = true →
      ((s.players q).row - (s.players i).row).natAbs +
        ((s.players q).col - (s.players i).col).natAbs = 1 →
      ((s.players q).hp - DAMAGE ≤ 0 →
        (handleLine obs s i (String.toList "ATTACK")).state.players q =
          { s.players q with hp := 0, socket_fd := -1, active := false }) ∧
      (0 < (s.players q).hp - DAMAGE →
        (handleLine obs s i (String.toList "ATTACK")).state.players q =
          { s.players q with hp := (s.players q).hp - DAMAGE })) ∧
    (∀ q : Fin 4, (q = i ∨ (s.players q).active = false ∨
        ((s.players q).row - (s.players i).row).natAbs +
          ((s.players q).col - (s.players i).col).natAbs ≠ 1) →
      (handleLine obs s i (String.toList "ATTACK")).state.players q = s.players q) ∧
    ((handleLine obs s i (String.toList "ATTACK")).state.player_count =
      s.player_count - ((List.finRange 4).countP
        (fun q => killCond (s.players i).row (s.players i).col i q (s.players q)) : Int)) ∧
    (∀ q : Fin 4, killCond (s.players i).row (s.players i).col i q (s.players q) = true ↔
      (q ≠ i ∧ (s.players q).active = true ∧
        ((s.players q).row - (s.players i).row).natAbs +
          ((s.players q).col - (s.players i).col).natAbs = 1 ∧
        (s.players q).hp - DAMAGE ≤ 0)) ∧
    ((∃ q : Fin 4, q ≠ i ∧ (s.players q).active = true ∧
        ((s.players q).row - (s.players i).row).natAbs +
          ((s.players q).col - (s.players i).col).natAbs = 1) →
      (handleLine obs s i (String.toList "ATTACK")).reply = none ∧
      (handleLine obs s i (String.toList "ATTACK")).broadcast = true) ∧
    ((¬∃ q : Fin 4, q ≠ i ∧ (s.players q).active = true ∧
        ((s.players q).row - (s.players i).row).natAbs +
          ((s.players q).col - (s.players i).col).natAbs = 1) →
      handleLine obs s i (String.toList "ATTACK") = ⟨s, some msgNoTargets, false⟩) := by
  have hgo := attackGo_eq (s.players i).row (s.players i).col i (List.finRange 4)
    nodup_finRange4 s false
  have hst : (handleLine obs s i (String.toList "ATTACK")).state =
      (attackGo (s.players i).row (s.players i).col i (List.finRange 4) s false).1 := by
    rw [handleLine_attack]
    split_ifs <;> rfl
  have hplayers : ∀ q : Fin 4, (handleLine obs s i (String.toList "ATTACK")).state.players q =
      attackSlot (s.players i).row (s.players i).col i q (s.players q) := by
    intro q
    rw [hst, hgo]
    dsimp only
    rw [if_pos (mem_finRange4 q)]
  have hflag : (attackGo (s.players i).row (s.players i).col i (List.finRange 4) s false).2 =
      (List.finRange 4).any
        (fun q => hitCond (s.players i).row (s.players i).col i q (s.players q)) := by
    rw [hgo]
    dsimp only
    rw [Bool.false_or]
  refine ⟨?_, ?_, ?_, ?_, ?_, ?_⟩
  · intro q hne hq hadj
    have hhit : hitCond (s.players i).row (s.players i).col i q (s.players q) = true :=
      (hitCond_iff _ _ _ _ _).mpr ⟨hq, hne, hadj⟩
    constructor
    · intro hdead
      rw [hplayers q]
      unfold attackSlot
      rw [if_pos hhit, if_pos hdead]
    · intro halive
      rw [hplayers q]
      unfold attackSlot
      rw [if_pos hhit, if_neg (by omega)]
  · intro q hdis
    rw [hplayers q]
    apply attackSlot_of_not_hit
    intro hhit
    rcases (hitCond_iff _ _ _ _ _).mp hhit with ⟨ha, hne, hsum⟩
    rcases hdis with h | h | h
    · exact hne h
    · rw [h] at ha
      simp at ha
    · exact h hsum
  · rw [hst, hgo]
  · intro q
    exact killCond_iff _ _ _ _ _
  · rintro ⟨q, hne, ha, hsum⟩
    have hhit : hitCond (s.players i).row (s.players i).col i q (s.players q) = true :=
      (hitCond_iff _ _ _ _ _).mpr ⟨ha, hne, hsum⟩
    have hflag2 : (attackGo (s.players i).row (s.players i).col i
        (List.finRange 4) s false).2 = true := by
      rw [hflag, List.any_eq_true]
      exact ⟨q, mem_finRange4 q, hhit⟩
    rw [handleLine_attack, if_pos hflag2]
    exact ⟨rfl, rfl⟩
  · intro hno
    have hnone : ∀ q : Fin 4,
        hitCond (s.players i).row (s.players i).col i q (s.players q) = false := by
      intro q
      cases hv : hitCond (s.players i).row (s.players i).col i q (s.players q)
      · rfl
      · rcases (hitCond_iff _ _ _ _ _).mp hv with ⟨ha, hne, hsum⟩
        exact absurd ⟨q, hne, ha, hsum⟩ hno
    have hflag2 : (attackGo (s.players i).row (s.players i).col i
        (List.finRange 4) s false).2 = false := by
      rw [hflag]
      rw [List.any_eq_false]
      intro x _
      rw [hnone x]
      simp
    have hsteq : (attackGo (s.players i).row (s.players i).col i
        (List.finRange 4) s false).1 = s := by
      rw [hgo]
      refine GameState.ext ?_ ?_
      · funext q
        dsimp only
        rw [if_pos (mem_finRange4 q)]
        exact attackSlot_of_not_hit (by rw [hnone q]; simp)
      · dsimp only
        have hz : ((List.finRange 4).countP
            (fun q => killCond (s.players i).row (s.players i).col i q (s.players q))) = 0 := by
          rw [List.countP_eq_zero]
          intro a _
          rw [killCond]
          rw [hnone a]
          simp
        rw [hz]
        simp
    rw [handleLine_attack, if_neg (by rw [hflag2]; simp), hsteq]

/-- Witness for C4: in stateB the attacker at (2,2) damages the adjacent
player at (2,3) from 100 down to 80. -/
theorem c4_attack_resolution_witness :
    (handleLine obs0 stateB 0 (String.toList "ATTACK")).state.players 1 =
      { stateB.players 1 with hp := (stateB.players 1).hp - DAMAGE } :=
  ((c4_attack_resolution obs0 stateB 0 (by decide)).1 1 (by decide) (by decide)
    (by decide)).2 (by decide)

lemma card_univ_cells : (Finset.univ : Finset (Fin 5 × Fin 5)).card = 25 := by decide

/-- C9: the two rejection-sampling loops can always terminate because an
admissible cell always exists: with at most 5 obstacle cells and at most 3
other occupied slots an admissible spawn cell exists on the 25-cell grid,
and the spawn loop returns the first admissible draw for every draw stream
containing one; with fewer than 25 obstacle cells a fresh obstacle cell
exists, and the obstacle loop completes for every duplicate-free stream of
fresh cells that is long enough. -/
theorem c9_rejection_sampling_terminates :
    (∀ (obs : Int → Int → Bool) (s : GameState) (idx : Fin 4),
      (obstacleCells obs).card ≤ 5 →
      (Finset.univ.filter (fun j : Fin 4 => j ≠ idx ∧ (s.players j).active = true)).card ≤ 3 →
      ∃ d : Fin 5 × Fin 5, obs (d.1.val : Int) (d.2.val : Int) = false ∧
        cellBlocked s idx (d.1.val : Int) (d.2.val : Int) = false) ∧
    (∀ (obs : Int → Int → Bool) (s : GameState) (idx : Fin 4) (draws : List (Fin 5 × Fin 5)),
      (∃ d ∈ draws, obs (d.1.val : Int) (d.2.val : Int) = false ∧
          cellBlocked s idx (d.1.val : Int) (d.2.val : Int) = false) →
      ∃ rc, samplePos obs s idx draws = some rc) ∧
    (∀ g : Fin 5 → Fin 5 → Bool,
      (Finset.univ.filter (fun d : Fin 5 × Fin 5 => g d.1 d.2 = true)).card < 25 →
      ∃ d : Fin 5 × Fin 5, g d.1 d.2 = false) ∧
    (∀ (draws : List (Fin 5 × Fin 5)) (need : Nat) (g : Fin 5 → Fin 5 → Bool),
      need ≤ draws.length → draws.Nodup → (∀ d ∈ draws, g d.1 d.2 = false) →
      (placeObstacles draws need g).isSome = true) := by
  refine ⟨?_, ?_, ?_, ?_⟩
  · intro obs s idx hobs hact
    by_contra hno
    push_neg at hno
    set blockedCells : Finset (Fin 5 × Fin 5) :=
      (Finset.univ.filter (fun j : Fin 4 => j ≠ idx ∧ (s.players j).active = true)).biUnion
        (fun j => Finset.univ.filter (fun d : Fin 5 × Fin 5 =>
          (s.players j).row = (d.1.val : Int) ∧ (s.players j).col = (d.2.val : Int)))
      with hBC
    have hsub : (Finset.univ : Finset (Fin 5 × Fin 5)) ⊆ obstacleCells obs ∪ blockedCells := by
      intro d _
      by_cases ho : obs (d.1.val : Int) (d.2.val : Int) = true
      · exact Finset.mem_union_left _ (Finset.mem_filter.mpr ⟨Finset.mem_univ d, ho⟩)
      · have ho' : obs (d.1.val : Int) (d.2.val : Int) = false := by
          cases hv : obs (d.1.val : Int) (d.2.val : Int)
          · rfl
          · exact absurd hv ho
        have hb' : cellBlocked s idx (d.1.val : Int) (d.2.val : Int) = true := by
          cases hv : cellBlocked s idx (d.1.val : Int) (d.2.val : Int)
          · exact absurd hv (hno d ho')
          · rfl
        obtain ⟨j, hj, hja, hjr, hjc⟩ := (cellBlocked_iff s idx _ _).mp hb'
        refine Finset.mem_union_right _ (Finset.mem_biUnion.mpr ⟨j, ?_, ?_⟩)
        · exact Finset.mem_filter.mpr ⟨Finset.mem_univ j, hj, hja⟩
        · exact Finset.mem_filter.mpr ⟨Finset.mem_univ d, hjr, hjc⟩
    have hbc : blockedCells.card ≤ 3 := by
      rw [hBC]
      refine le_trans Finset.card_biUnion_le ?_
      refine le_trans (Finset.sum_le_card_nsmul _ _ 1 ?_) ?_
      · intro j _
        refine Finset.card_le_one.mpr (fun a ha b hb => ?_)
        obtain ⟨-, har, hac⟩ := Finset.mem_filter.mp ha
        obtain ⟨-, hbr, hbc⟩ := Finset.mem_filter.mp hb
        have h1 : (a.1.val : Int) = (b.1.val : Int) := by rw [← har, ← hbr]
        have h2 : (a.2.val : Int) = (b.2.val : Int) := by rw [← hac, ← hbc]
        have h1' : a.1 = b.1 := Fin.ext (by exact_mod_cast h1)
        have h2' : a.2 = b.2 := Fin.ext (by exact_mod_cast h2)
        exact Prod.ext h1' h2'
      · simpa using hact
    have habs : (25 : Nat) ≤ 8 := by
      calc (25 : Nat) = (Finset.univ : Finset (Fin 5 × Fin 5)).card := card_univ_cells.symm
        _ ≤ (obstacleCells obs ∪ blockedCells).card := Finset.card_le_card hsub
        _ ≤ (obstacleCells obs).card + blockedCells.card := Finset.card_union_le _ _
        _ ≤ 5 + 3 := Nat.add_le_add hobs hbc
    omega
  · intro obs s idx draws hex
    exact samplePos_term obs s idx draws hex
  · intro g hcard
    by_contra hno
    push_neg at hno
    have hsub : (Finset.univ : Finset (Fin 5 × Fin 5)) ⊆
        Finset.univ.filter (fun d : Fin 5 × Fin 5 => g d.1 d.2 = true) := by
      intro d _
      refine Finset.mem_filter.mpr ⟨Finset.mem_univ d, ?_⟩
      cases hv : g d.1 d.2
      · exact absurd hv (hno d)
      · rfl
    have hge := Finset.card_le_card hsub
    rw [card_univ_cells] at hge
    omega
  · intro draws
    induction draws with
    | nil =>
        intro need g hlen _ _
        cases need with
        | zero => simp [placeObstacles]
        | succ k => simp at hlen
    | cons d rest ih =>
        intro need g hlen hnd hfresh
        cases need with
        | zero => simp [placeObstacles]
        | succ k =>
            rw [placeObstacles, if_neg (by rw [hfresh d (by simp)]; simp)]
            refine ih k (setObs g d) (by simp at hlen; omega) (List.nodup_cons.mp hnd).2 ?_
            intro e he
            have hed : e ≠ d := by
              intro hh
              exact (List.nodup_cons.mp hnd).1 (hh ▸ he)
            unfold setObs
            rw [if_neg ?_, hfresh e (by simp [he])]
            rintro ⟨h1, h2⟩
            exact hed (Prod.ext h1 h2)

/-- Witness for C9: concrete instances of each conjunct on the empty grid. -/
theorem c9_rejection_sampling_terminates_witness :
    (∃ d : Fin 5 × Fin 5, obs0 (d.1.val : Int) (d.2.val : Int) = false ∧
      cellBlocked initState 0 (d.1.val : Int) (d.2.val : Int) = false) ∧
    (∃ rc, samplePos obs0 initState 0 [(0, 0)] = some rc) ∧
    (∃ d : Fin 5 × Fin 5, (fun _ _ => false : Fin 5 → Fin 5 → Bool) d.1 d.2 = false) ∧
    (placeObstacles [(0, 0)] 1 (fun _ _ => false)).isSome = true :=
  ⟨c9_rejection_sampling_terminates.1 obs0 initState 0 (by decide) (by decide),
   c9_rejection_sampling_terminates.2.1 obs0 initState 0 [(0, 0)]
     ⟨(0, 0), by decide, by decide, by decide⟩,
   c9_rejection_sampling_terminates.2.2.1 (fun _ _ => false) (by decide),
   c9_rejection_sampling_terminates.2.2.2 [(0, 0)] 1 (fun _ _ => false)
     (by decide) (by decide) (by decide)⟩

end AsciiBattle
